import Mathlib

/-!
Verification of the FiniteStateMachine engine (the rewrite with a full
history stack, the variant the specification designates as authoritative).

Shallow embedding notes.
* JavaScript values that flow through the engine (guard results, callback
  results, event arguments) are modelled by the inductive `Val`.  The engine
  only ever inspects a value with the check for an Error instance
  (result instanceof Error), modelled by `Val.isError`.
* Host-supplied asynchronous callbacks (guards, enter, exit, event handlers)
  always resolve in the model; they are modelled as pure functions
  `List Val -> Val` from the argument list to the resolved value.  A callback
  that rejects, and host callbacks that re-enter the machine, are outside the
  model; none of the claims need them.
* The registries `_states` and `_transitions` are JavaScript objects used as
  string-keyed maps with last-write-wins updates.  They are modelled as
  association lists to which a (re)definition is prepended and in which lookup
  returns the first match: the first match is the most recent write, so the
  semantics coincide.
* The transition queue holds closures that capture only the target name, the
  direction tag and the argument list; they are modelled first-order by
  `RequestDescr`, interpreted by `runRequest` (the shared body of the closures
  built in enterState and exitState).
* Thrown failures / rejected promises are modelled with `Except Val`: the
  `Except.error` branch is a rejection, the `Except.ok` branch a normal
  resolution.  `enterState` never rejects, so it returns a plain value.
-/

namespace FSM

/-- A JavaScript value as far as the engine can distinguish values: the engine
only tests values with instanceof Error.  `err` is an Error instance carrying
its message, `str` any other distinguishable value, `undef` is undefined. -/
inductive Val where
  | undef : Val
  | err : String → Val
  | str : String → Val
  deriving DecidableEq, Repr

/-- The check result instanceof Error used throughout the engine. -/
def Val.isError : Val → Bool
  | Val.err _ => true
  | _ => false

/-- One element of the _previousStates array: the name of the state that was
exited forward-ward and the argument list used at that transition. -/
structure HistEntry where
  name : String
  args : List Val
  deriving DecidableEq, Repr

/-- The direction tag passed to _transitionStates. -/
inductive Direction where
  | forward : Direction
  | backward : Direction
  deriving DecidableEq, Repr

/-- The data captured by a queued transition closure: the target state name,
the direction, and the argument list forwarded to guard/exit/enter. -/
structure RequestDescr where
  target : String
  direction : Direction
  args : List Val

/-- A state definition object: optional enter and exit lifecycle callbacks
plus an open bag of named event handler callbacks. -/
structure StateDef where
  enter : Option (List Val → Val)
  exit : Option (List Val → Val)
  events : List (String × (List Val → Val))

/-- A state definition with no callbacks, the default argument of
defineState. -/
def emptyDef : StateDef := ⟨none, none, []⟩

/-- The instance fields of class FiniteStateMachine, in constructor order:
_states, _transitions, _initialStateName, _currentStateName, _previousStates,
_transitionQueue, _transitioning, _data, _debug. -/
structure Machine where
  states : List (String × StateDef)
  transitions : List (String × String × (List Val → Val))
  initialStateName : String
  currentStateName : String
  previousStates : List HistEntry
  transitionQueue : List RequestDescr
  transitioning : Bool
  data : List (String × Val)
  debugFlag : Bool

/-- A freshly constructed machine (constructor body with no initialData). -/
def fresh : Machine := ⟨[], [], "", "", [], [], false, [], false⟩

/-- Property lookup on a string-keyed JavaScript object modelled as an
association list with most recent writes at the front. -/
def lookupStr {α : Type} : List (String × α) → String → Option α
  | [], _ => none
  | (k, v) :: rest, n => if k = n then some v else lookupStr rest n

/-- Lookup in the nested _transitions[fromState][toState] map. -/
def lookupTransition : List (String × String × (List Val → Val)) → String → String →
    Option (List Val → Val)
  | [], _, _ => none
  | (s, t, g) :: rest, src, dst =>
      if s = src ∧ t = dst then some g else lookupTransition rest src dst

/-- getState: returns the definition stored under stateName, or undefined. -/
def getState (m : Machine) (stateName : String) : Option StateDef :=
  lookupStr m.states stateName

/-- defineState: stores the definition under name and, when no initial state
name is set yet (the empty string is falsy), designates this name as initial.
The falsy test means that a call with the empty-string name leaves the
initial designation unset. -/
def defineState (m : Machine) (name : String) (definition : StateDef) : Machine :=
  let m₁ : Machine := { m with states := (name, definition) :: m.states }
  if m₁.initialStateName = "" then { m₁ with initialStateName := name } else m₁

/-- defineTransition: registers the guard under (fromState, toState) when both
names are truthy (the guard argument is always a function in the model),
returning true for the chaining handle and false otherwise.  The warnings
logged for unregistered endpoint names have no effect on the machine. -/
def defineTransition (m : Machine) (fromState toState : String)
    (transitionCheck : List Val → Val) : Machine × Bool :=
  if fromState ≠ "" ∧ toState ≠ "" then
    ({ m with transitions := (fromState, toState, transitionCheck) :: m.transitions }, true)
  else (m, false)

/-- initialState: throws when the named state does not exist; otherwise
records the name as initial and current, clears the previous states, and when
the definition has an enter callback resolves with its result, else with
undefined.  The transition registries are never consulted here. -/
def initialState (m : Machine) (stateName : String) (rest : List Val) :
    Machine × Except Val Val :=
  match getState m stateName with
  | none =>
      (m, Except.error (Val.err
        ("Cannot set initial state \"" ++ stateName ++ "\" because it does not exist!")))
  | some newStateObj =>
      let m₁ : Machine :=
        { m with initialStateName := stateName, currentStateName := stateName,
                 previousStates := [] }
      match newStateObj.enter with
      | some enterFn => (m₁, Except.ok (enterFn rest))
      | none => (m₁, Except.ok Val.undef)

/-- The inner goToNextState closure of _transitionStates: on a forward
transition push the current state and arguments onto the history, switch the
current state name to the target, clear the whole history when the target is
the initial state name, then resolve with the enter callback result of the
target (undefined when it has none). -/
def goToNextState (m : Machine) (newStateName : String) (direction : Direction)
    (rest : List Val) (newStateObj : StateDef) : Machine × Val :=
  let m₁ : Machine :=
    match direction with
    | Direction.forward =>
        { m with previousStates := m.previousStates ++ [⟨m.currentStateName, rest⟩] }
    | Direction.backward => m
  let m₂ : Machine := { m₁ with currentStateName := newStateName }
  let m₃ : Machine :=
    if newStateName = m₂.initialStateName then { m₂ with previousStates := [] } else m₂
  match newStateObj.enter with
  | some enterFn => (m₃, enterFn rest)
  | none => (m₃, Val.undef)

/-- _transitionStates: resolves both definitions (an Error value is returned,
without mutation, when either is missing), awaits the exit callback of the
current state when present (an error-kind result stops the sequence without
mutation), then runs goToNextState. -/
def transitionStates (m : Machine) (newStateName : String) (direction : Direction)
    (rest : List Val) : Machine × Val :=
  match getState m m.currentStateName, getState m newStateName with
  | some currentStateObj, some newStateObj =>
      (match currentStateObj.exit with
       | some exitFn =>
           let exitResult := exitFn rest
           if exitResult.isError then (m, exitResult)
           else goToNextState m newStateName direction rest newStateObj
       | none => goToNextState m newStateName direction rest newStateObj)
  | _, _ =>
      (m, Val.err ("Cannot change states from \"" ++ m.currentStateName ++ "\" to \""
        ++ newStateName ++ "\" states because at least one is not defined."))

/-- The synchronous prefix of a queued transition closure, up to its first
suspension point.  The closure first checks for the no-op case, then looks up
the guard; with no guard it proceeds directly into _transitionStates, and with
a guard it calls the guard and suspends awaiting its result (the machine has
not been touched at that point). -/
inductive Seg1Result where
  | completed : Machine → Val → Seg1Result
  | awaitingGuard : Val → Seg1Result

/-- First segment of the queued closure body shared by enterState and
exitState (the code before the guard await). -/
def requestSeg1 (m : Machine) (req : RequestDescr) : Seg1Result :=
  if req.target = m.currentStateName then Seg1Result.completed m Val.undef
  else
    match lookupTransition m.transitions m.currentStateName req.target with
    | none =>
        let out := transitionStates m req.target req.direction req.args
        Seg1Result.completed out.1 out.2
    | some transitionCheck => Seg1Result.awaitingGuard (transitionCheck req.args)

/-- Second segment of the queued closure body: the continuation resumed with
the resolved guard value.  An error-kind value becomes the result of the
request without mutation; any other value lets the transition proceed. -/
def requestSeg2 (m : Machine) (req : RequestDescr) (result : Val) : Machine × Val :=
  if result.isError then (m, result)
  else transitionStates m req.target req.direction req.args

/-- A queued transition closure run to completion with no interleaving: the
two segments composed on the same machine. -/
def runRequest (m : Machine) (req : RequestDescr) : Machine × Val :=
  match requestSeg1 m req with
  | Seg1Result.completed m₁ r => (m₁, r)
  | Seg1Result.awaitingGuard guardResult => requestSeg2 m req guardResult

/-- The drain loop _processTransition, processing one request at a time.  The
loop shifts the head of the queue, marks the machine as transitioning, runs
the closure discarding its result, clears the flag and recurses; when the
queue is empty it clears the flag and resolves with undefined.  The recursion
is on a snapshot of the queue, which stays equal to the live queue because a
queued closure never touches the queue (runRequest writes no queue field). -/
def processTransitionGo : Machine → List RequestDescr → Machine × Val
  | m, [] => ({ m with transitioning := false }, Val.undef)
  | m, func :: remaining =>
      let m₁ : Machine := { m with transitioning := true, transitionQueue := remaining }
      let m₂ := (runRequest m₁ func).1
      processTransitionGo { m₂ with transitioning := false } remaining

/-- _processTransition on the live queue. -/
def processTransition (m : Machine) : Machine × Val :=
  processTransitionGo m m.transitionQueue

/-- enterState: appends a forward request for the target to the queue, then
drains the queue; the value of the call is the value of the drain (which is
always undefined, because the drain discards each request result). -/
def enterState (m : Machine) (newStateName : String) (rest : List Val) : Machine × Val :=
  let m₁ : Machine :=
    { m with transitionQueue :=
        m.transitionQueue ++ [⟨newStateName, Direction.forward, rest⟩] }
  processTransition m₁

/-- exitState: throws when the previous-states array is empty; otherwise pops
its last entry, builds a backward request toward that entry name with the
caller-supplied arguments when any were given and the stored arguments
otherwise, appends it to the queue and drains the queue. -/
def exitState (m : Machine) (rest : List Val) : Machine × Except Val Val :=
  match m.previousStates.getLast? with
  | none => (m, Except.error (Val.err "No previous state to transition to"))
  | some previousState =>
      let m₁ : Machine := { m with previousStates := m.previousStates.dropLast }
      let dataArgs := if rest.length = 0 then previousState.args else rest
      let m₂ : Machine :=
        { m₁ with transitionQueue :=
            m₁.transitionQueue ++ [⟨previousState.name, Direction.backward, dataArgs⟩] }
      let out := processTransition m₂
      (out.1, Except.ok out.2)

/-- The Error value modelling the TypeError thrown by the unguarded property
access on an undefined current-state definition in raiseEvent. -/
def typeErrorUndefinedLookup : Val :=
  Val.err "TypeError: cannot read a property of undefined"

/-- raiseEvent: awaits the beforeAll handler when that pseudo-state and the
handler exist (result discarded), then reads the handler off the definition of
the current state; that property access is not guarded, so a missing current
definition throws a TypeError; otherwise the handler result (or undefined) is
retained, the afterAll handler is awaited the same guarded way, and the
retained result is resolved. -/
def raiseEvent (m : Machine) (eventName : String) (rest : List Val) : Except Val Val :=
  let _beforeResult : Option Val :=
    match getState m "beforeAll" with
    | some beforeAllStateObj =>
        (match lookupStr beforeAllStateObj.events eventName with
         | some eventHandler => some (eventHandler rest)
         | none => none)
    | none => none
  match getState m m.currentStateName with
  | none => Except.error typeErrorUndefinedLookup
  | some currentStateObj =>
      let result : Val :=
        match lookupStr currentStateObj.events eventName with
        | some handler => handler rest
        | none => Val.undef
      let _afterResult : Option Val :=
        match getState m "afterAll" with
        | some afterAllStateObj =>
            (match lookupStr afterAllStateObj.events eventName with
             | some eventHandler => some (eventHandler rest)
             | none => none)
        | none => none
      Except.ok result

/-- setData: writes into the open data bag. -/
def setData (m : Machine) (key : String) (val : Val) : Machine :=
  { m with data := (key, val) :: m.data }

/-- getData: reads the open data bag. -/
def getData (m : Machine) (key : String) : Option Val :=
  lookupStr m.data key

/-- debug: with an argument sets the flag, without one reads it. -/
def debugCall (m : Machine) (val : Option Bool) : Machine :=
  match val with
  | some v => { m with debugFlag := v }
  | none => m

/-- One public operation on the machine, for statements quantifying over all
API calls. -/
inductive Op where
  | defineState : String → StateDef → Op
  | defineTransition : String → String → (List Val → Val) → Op
  | initialState : String → List Val → Op
  | enterState : String → List Val → Op
  | exitState : List Val → Op
  | raiseEvent : String → List Val → Op
  | setData : String → Val → Op
  | debug : Option Bool → Op

/-- The machine after one public operation (the machine component of each
call; raiseEvent reads the machine and, with callbacks modelled pure, writes
nothing). -/
def applyOp (op : Op) (m : Machine) : Machine :=
  match op with
  | Op.defineState n d => defineState m n d
  | Op.defineTransition s t g => (defineTransition m s t g).1
  | Op.initialState n args => (initialState m n args).1
  | Op.enterState n args => (enterState m n args).1
  | Op.exitState args => (exitState m args).1
  | Op.raiseEvent _ _ => m
  | Op.setData k v => setData m k v
  | Op.debug b => debugCall m b

/-- The initial state name produced by a sequence of defineState calls written
from the words of the specification: the first call names the initial state.
This is the spec-side definition compared against the code; the code instead
skips empty-string names, captured by firstNonEmptyName below. -/
def specFirstCallName (calls : List (String × StateDef)) : String :=
  match calls with
  | [] => ""
  | c :: _ => c.1

/-- The first non-empty name in a list of names, or the empty string when
there is none: what defineState really designates as initial. -/
def firstNonEmptyName : List String → String
  | [] => ""
  | n :: rest => if n = "" then firstNonEmptyName rest else n

/-- A sequence of defineState calls applied in order. -/
def foldDefine (m : Machine) (calls : List (String × StateDef)) : Machine :=
  calls.foldl (fun acc c => defineState acc c.1 c.2) m

/-- A guard that always cancels, used by concrete scenarios. -/
def denyGuard : List Val → Val := fun _ => Val.err "denied"

/-- A guard that always allows, used by concrete scenarios. -/
def allowGuard : List Val → Val := fun _ => Val.str "ok"

/-- Scenario machine for the guard-cancellation claims: states a and b with no
callbacks, a cancelling guard on the pair (a, b), initial and current state a
(reached through the public calls). -/
def guardDenyM : Machine :=
  let m := defineState fresh "a" emptyDef
  let m := defineState m "b" emptyDef
  let m := (defineTransition m "a" "b" denyGuard).1
  (initialState m "a" []).1

/-- Scenario machine for the backward guard-cancellation counterexample:
states a and b, a cancelling guard on the backward pair (b, a), the machine
moved a to b so that the history holds the entry for a. -/
def exitDenyM : Machine :=
  let m := defineState fresh "a" emptyDef
  let m := defineState m "b" emptyDef
  let m := (defineTransition m "b" "a" denyGuard).1
  let m := (initialState m "a" []).1
  (enterState m "b" []).1

/-- Scenario machine for the interleaving counterexample: states a, b, c with
no callbacks, an allowing guard on (a, b), initial and current state a. -/
def raceM : Machine :=
  let m := defineState fresh "a" emptyDef
  let m := defineState m "b" emptyDef
  let m := defineState m "c" emptyDef
  let m := (defineTransition m "a" "b" allowGuard).1
  (initialState m "a" []).1

/-- The request enqueued by the call enterState(b) in the race scenario. -/
def raceReqB : RequestDescr := ⟨"b", Direction.forward, []⟩

/-- The request enqueued by the call enterState(c) in the race scenario. -/
def raceReqC : RequestDescr := ⟨"c", Direction.forward, []⟩

/-- The final machine of the race scenario under the real event-loop order.
The host calls enterState(b) and then, without awaiting it, enterState(c).
The first call pushes its request and _processTransition dequeues and starts
it: the closure finds the guard for (a, b), calls it and suspends awaiting
the result, having touched nothing (requestSeg1).  Control returns to the
host, which synchronously calls enterState(c): _processTransition is invoked
again, finds the freshly pushed request in the queue — nothing consults the
_transitioning flag, which is set but never read — dequeues it and runs it;
with no guard for (a, c) and no callbacks on these states, that closure runs
its whole mutation path before the host turn ends (runRequest).  Only then do
microtasks resume the first closure with the resolved guard value
(requestSeg2), which now transitions from the mutated machine.  So the second
request is dequeued and executed while the first is still in flight. -/
def raceInterleavedFinal : Machine :=
  match requestSeg1 raceM raceReqB with
  | Seg1Result.awaitingGuard guardResult =>
      (requestSeg2 (runRequest raceM raceReqC).1 raceReqB guardResult).1
  | Seg1Result.completed m₁ _ => m₁

/-- The final machine of the race scenario under the serialization the claim
asserts: the first request runs to completion, then the second. -/
def raceSerializedFinal : Machine :=
  (runRequest (runRequest raceM raceReqB).1 raceReqC).1

/-- Scenario machine with one history entry for the exit-state claims: states
a and b without callbacks, initial a, current b, history holding the entry
for a. -/
def oneBackM : Machine :=
  let m := defineState fresh "a" emptyDef
  let m := defineState m "b" emptyDef
  let m := (initialState m "a" []).1
  (enterState m "b" []).1

/-- An enter callback that resolves with an Error value, for the
no-rollback claim. -/
def failingEnter : List Val → Val := fun _ => Val.err "enter failed"

/-- A state definition whose enter callback resolves with an Error value. -/
def failingEnterDef : StateDef := ⟨some failingEnter, none, []⟩

/-- Scenario machine for the no-rollback claim: states a (no callbacks) and b
(enter resolves with an Error value), initial and current state a. -/
def enterErrM : Machine :=
  let m := defineState fresh "a" emptyDef
  let m := defineState m "b" failingEnterDef
  (initialState m "a" []).1

/-- Scenario machine for the initial-designation claims: states x and y, the
first defined name x designated initial. -/
def twoStatesM : Machine :=
  defineState (defineState fresh "x" emptyDef) "y" emptyDef

/-- Scenario machine for the event-dispatch claim: a beforeAll pseudo-state
with a handler for event x is registered, but the current state name (the
empty string of a machine with no initial state set) has no definition. -/
def beforeAllOnlyM : Machine :=
  defineState fresh "beforeAll" ⟨none, none, [("x", fun _ => Val.str "before")]⟩

end FSM

namespace FSM

/-- getState ignores every machine field except the state registry. -/
theorem getState_transitions (m : Machine) (ts : List (String × String × (List Val → Val)))
    (n : String) : getState { m with transitions := ts } n = getState m n := rfl

/-- The current state name is untouched by goToNextState bookkeeping other
than the assignment to the target. -/
theorem goToNextState_current (m : Machine) (t : String) (dir : Direction)
    (rest : List Val) (obj : StateDef) :
    (goToNextState m t dir rest obj).1.currentStateName = t := by
  unfold goToNextState
  cases dir <;> cases h : obj.enter <;> by_cases ht : t = m.initialStateName <;>
    simp [h, ht]

/-- goToNextState never writes the initial state name. -/
theorem goToNextState_initial (m : Machine) (t : String) (dir : Direction)
    (rest : List Val) (obj : StateDef) :
    (goToNextState m t dir rest obj).1.initialStateName = m.initialStateName := by
  unfold goToNextState
  cases dir <;> cases h : obj.enter <;> by_cases ht : t = m.initialStateName <;>
    simp [h, ht]

/-- goToNextState never writes the transition queue. -/
theorem goToNextState_queue (m : Machine) (t : String) (dir : Direction)
    (rest : List Val) (obj : StateDef) :
    (goToNextState m t dir rest obj).1.transitionQueue = m.transitionQueue := by
  unfold goToNextState
  cases dir <;> cases h : obj.enter <;> by_cases ht : t = m.initialStateName <;>
    simp [h, ht]

/-- The history after goToNextState: cleared when the target is the initial
state name, otherwise extended by the exited state on a forward transition and
untouched on a backward one. -/
theorem goToNextState_prev (m : Machine) (t : String) (dir : Direction)
    (rest : List Val) (obj : StateDef) :
    (goToNextState m t dir rest obj).1.previousStates =
      if t = m.initialStateName then []
      else
        match dir with
        | Direction.forward => m.previousStates ++ [⟨m.currentStateName, rest⟩]
        | Direction.backward => m.previousStates := by
  unfold goToNextState
  cases dir <;> cases h : obj.enter <;> by_cases ht : t = m.initialStateName <;>
    simp [h, ht]

/-- Case analysis on _transitionStates: either it fails (missing definition or
exit error) leaving the machine untouched with an error-kind result, or it
reaches goToNextState with the definition of the target. -/
theorem transitionStates_cases (m : Machine) (t : String) (dir : Direction)
    (rest : List Val) :
    ((transitionStates m t dir rest).1 = m ∧
      (transitionStates m t dir rest).2.isError = true) ∨
    (∃ obj, getState m t = some obj ∧
      transitionStates m t dir rest = goToNextState m t dir rest obj) := by
  unfold transitionStates
  cases h₁ : getState m m.currentStateName <;> cases h₂ : getState m t <;>
    simp only [h₁, h₂]
  · left; simp [Val.isError]
  · left; simp [Val.isError]
  · left; simp [Val.isError]
  · rename_i cur tgt
    cases h₃ : cur.exit with
    | none => simp only [h₃]; right; exact ⟨tgt, rfl, rfl⟩
    | some exitFn =>
        simp only [h₃]
        by_cases h₄ : (exitFn rest).isError = true
        · rw [if_pos h₄]; left; exact ⟨rfl, h₄⟩
        · rw [if_neg h₄]; right; exact ⟨tgt, rfl, rfl⟩

/-- Case analysis on a queued closure run to completion: a no-op when the
target is already current, a cancellation or failure leaving the machine
untouched with an error-kind result, or a completed goToNextState on the
target definition. -/
theorem runRequest_cases (m : Machine) (req : RequestDescr) :
    (runRequest m req = (m, Val.undef) ∧ req.target = m.currentStateName) ∨
    ((runRequest m req).1 = m ∧ (runRequest m req).2.isError = true) ∨
    (req.target ≠ m.currentStateName ∧ ∃ obj, getState m req.target = some obj ∧
      runRequest m req = goToNextState m req.target req.direction req.args obj) := by
  unfold runRequest requestSeg1 requestSeg2
  by_cases h₀ : req.target = m.currentStateName
  · left; simp [h₀]
  · simp only [h₀, if_false]
    cases h₁ : lookupTransition m.transitions m.currentStateName req.target with
    | none =>
        rcases transitionStates_cases m req.target req.direction req.args with
          hfail | ⟨obj, hobj, heq⟩
        · right; left; simpa using hfail
        · right; right; exact ⟨h₀, obj, hobj, by simpa using heq⟩
    | some transitionCheck =>
        by_cases h₂ : (transitionCheck req.args).isError
        · right; left; simp [h₂]
        · simp only [h₂, if_false]
          rcases transitionStates_cases m req.target req.direction req.args with
            hfail | ⟨obj, hobj, heq⟩
          · right; left; simpa using hfail
          · right; right; exact ⟨h₀, obj, hobj, by simpa using heq⟩

/-- A queued closure never writes the initial state name. -/
theorem runRequest_initial (m : Machine) (req : RequestDescr) :
    (runRequest m req).1.initialStateName = m.initialStateName := by
  rcases runRequest_cases m req with ⟨heq, _⟩ | ⟨heq, _⟩ | ⟨_, obj, _, heq⟩
  · rw [heq]
  · rw [heq]
  · rw [heq]; exact goToNextState_initial ..

/-- A queued closure never writes the transition queue. -/
theorem runRequest_queue (m : Machine) (req : RequestDescr) :
    (runRequest m req).1.transitionQueue = m.transitionQueue := by
  rcases runRequest_cases m req with ⟨heq, _⟩ | ⟨heq, _⟩ | ⟨_, obj, _, heq⟩
  · rw [heq]
  · rw [heq]
  · rw [heq]; exact goToNextState_queue ..

/-- A queued closure that leaves the current state name unchanged leaves the
history unchanged as well. -/
theorem runRequest_current_fix_prev (m : Machine) (req : RequestDescr)
    (h : (runRequest m req).1.currentStateName = m.currentStateName) :
    (runRequest m req).1.previousStates = m.previousStates := by
  rcases runRequest_cases m req with ⟨heq, _⟩ | ⟨heq, _⟩ | ⟨hne, obj, _, heq⟩
  · rw [heq]
  · rw [heq]
  · exact absurd (by rw [heq] at h; rwa [goToNextState_current] at h) hne

/-- A queued closure that changes the current state name to the initial state
name leaves an empty history: the clearing branch of goToNextState. -/
theorem runRequest_to_initial_clears (m : Machine) (req : RequestDescr)
    (h₁ : (runRequest m req).1.currentStateName ≠ m.currentStateName)
    (h₂ : (runRequest m req).1.currentStateName = (runRequest m req).1.initialStateName) :
    (runRequest m req).1.previousStates = [] := by
  rcases runRequest_cases m req with ⟨heq, _⟩ | ⟨heq, _⟩ | ⟨hne, obj, _, heq⟩
  · exact absurd (by rw [heq]) h₁
  · exact absurd (by rw [heq]) h₁
  · rw [heq] at h₁ h₂ ⊢
    rw [goToNextState_current] at h₂
    rw [goToNextState_initial] at h₂
    rw [goToNextState_prev, if_pos h₂]

/-- A backward queued closure either leaves the history exactly as given or
clears it because the target is the initial state name. -/
theorem runRequest_backward_prev (m : Machine) (req : RequestDescr)
    (hdir : req.direction = Direction.backward) :
    (runRequest m req).1.previousStates = m.previousStates ∨
    ((runRequest m req).1.previousStates = [] ∧ req.target = m.initialStateName) := by
  rcases runRequest_cases m req with ⟨heq, _⟩ | ⟨heq, _⟩ | ⟨hne, obj, _, heq⟩
  · left; rw [heq]
  · left; rw [heq]
  · rw [heq, goToNextState_prev, hdir]
    by_cases ht : req.target = m.initialStateName
    · right; rw [if_pos ht]; exact ⟨rfl, ht⟩
    · left; rw [if_neg ht]

/-- A queued closure whose result is not error-kind has made the target the
current state name (the no-op branch included, whose target is the current
state already). -/
theorem runRequest_ok_current (m : Machine) (req : RequestDescr)
    (h : (runRequest m req).2.isError = false) :
    (runRequest m req).1.currentStateName = req.target := by
  rcases runRequest_cases m req with ⟨heq, htgt⟩ | ⟨_, herr⟩ | ⟨_, obj, _, heq⟩
  · rw [heq]; exact htgt.symm
  · rw [herr] at h; exact absurd h (by simp)
  · rw [heq]; exact goToNextState_current ..

/-- The drain loop never writes the initial state name. -/
theorem processGo_initial (l : List RequestDescr) (m : Machine) :
    (processTransitionGo m l).1.initialStateName = m.initialStateName := by
  induction l generalizing m with
  | nil => rfl
  | cons f rest ih =>
      show (processTransitionGo _ rest).1.initialStateName = _
      rw [ih]
      exact runRequest_initial ..

/-- If the drain loop ends with the current state name equal to the initial
state name, then either no request moved the machine (history and current
state are exactly as at the start of the drain) or the last move entered the
initial state and the history is empty. -/
theorem processGo_q (l : List RequestDescr) (m : Machine)
    (h : (processTransitionGo m l).1.currentStateName =
      (processTransitionGo m l).1.initialStateName) :
    ((processTransitionGo m l).1.previousStates = m.previousStates ∧
      (processTransitionGo m l).1.currentStateName = m.currentStateName) ∨
    (processTransitionGo m l).1.previousStates = [] := by
  induction l generalizing m with
  | nil => left; exact ⟨rfl, rfl⟩
  | cons f rest ih =>
      have hstep :
          processTransitionGo m (f :: rest) =
            processTransitionGo
              { (runRequest { m with transitioning := true, transitionQueue := rest } f).1
                with transitioning := false } rest := rfl
      rw [hstep] at h ⊢
      rcases ih _ h with ⟨hprev, hcur⟩ | hclear
      · by_cases hc :
            (runRequest { m with transitioning := true, transitionQueue := rest } f).1.currentStateName
              = m.currentStateName
        · left
          constructor
          · rw [hprev]
            exact runRequest_current_fix_prev
              { m with transitioning := true, transitionQueue := rest } f hc
          · rw [hcur]; exact hc
        · right
          rw [hprev]
          refine runRequest_to_initial_clears
            { m with transitioning := true, transitionQueue := rest } f hc ?hini
          have hinit := processGo_initial rest
            { (runRequest { m with transitioning := true, transitionQueue := rest } f).1
              with transitioning := false }
          exact hcur.symm.trans (h.trans hinit)
      · right; exact hclear

/-- defineState never writes the current state name. -/
theorem defineState_current (m : Machine) (n : String) (d : StateDef) :
    (defineState m n d).currentStateName = m.currentStateName := by
  by_cases h : m.initialStateName = "" <;> simp [defineState, h]

/-- The initial state name after defineState: the defined name when the
designation was unset, the old designation otherwise. -/
theorem defineState_initial (m : Machine) (n : String) (d : StateDef) :
    (defineState m n d).initialStateName =
      if m.initialStateName = "" then n else m.initialStateName := by
  by_cases h : m.initialStateName = "" <;> simp [defineState, h]

/-- The initial state name after a sequence of defineState calls: when the
designation starts unset it becomes the first non-empty name of the sequence,
otherwise it is untouched. -/
theorem foldDefine_initial (calls : List (String × StateDef)) (m : Machine) :
    (foldDefine m calls).initialStateName =
      if m.initialStateName = "" then firstNonEmptyName (calls.map Prod.fst)
      else m.initialStateName := by
  induction calls generalizing m with
  | nil =>
      by_cases h : m.initialStateName = "" <;> simp [foldDefine, firstNonEmptyName, h]
  | cons c rest ih =>
      show (foldDefine (defineState m c.1 c.2) rest).initialStateName = _
      rw [ih, defineState_initial]
      by_cases h : m.initialStateName = ""
      · by_cases hc : c.1 = "" <;> simp [h, hc, firstNonEmptyName]
      · simp [h]

/-- Claim C1: the specification requires that queued transition requests are
executed strictly in arrival order with no interleaving and that a call made
while a drain is in flight only enqueues.  The code violates this: the drain
routine never consults the transitioning flag (the flag is written but never
read), so a call made while a request is suspended at its guard await dequeues
and runs the new request at once.  In the race scenario the interleaved
execution finishes in state b with history entries a then c, while the
serialized execution required by the claim finishes in state c with history
entries a then b. -/
theorem claim1_second_drain_interleaves :
    raceInterleavedFinal.currentStateName = "b" ∧
    raceInterleavedFinal.previousStates = [⟨"a", []⟩, ⟨"c", []⟩] ∧
    raceSerializedFinal.currentStateName = "c" ∧
    raceSerializedFinal.previousStates = [⟨"a", []⟩, ⟨"b", []⟩] ∧
    raceInterleavedFinal.currentStateName ≠ raceSerializedFinal.currentStateName := by
  refine ⟨rfl, rfl, rfl, rfl, ?last⟩
  decide

/-- Claim C2: the claim states that when a registered guard resolves to an
error-kind value, the promise returned by enterState resolves with that value.
The code resolves the call with undefined instead: the drain routine discards
the result of every queued closure and the call returns the result of the
drain.  The closure itself did produce the guard error, as the second
conjunct shows. -/
theorem claim2_guard_error_result_discarded :
    (enterState guardDenyM "b" []).2 = Val.undef ∧
    (runRequest guardDenyM ⟨"b", Direction.forward, []⟩).2 = Val.err "denied" ∧
    Val.undef ≠ Val.err "denied" := by
  refine ⟨rfl, rfl, ?ne⟩
  decide

/-- Claim C6: exitState called with an empty history stack rejects with the
failure whose message is No previous state to transition to, and the machine
(current state name, history stack, transition queue, everything else) is
exactly as before the call. -/
theorem claim6_exit_empty_history_throws (m : Machine) (rest : List Val)
    (h : m.previousStates = []) :
    exitState m rest = (m, Except.error (Val.err "No previous state to transition to")) := by
  unfold exitState
  rw [h]
  rfl

/-- Witness for claim C6 on the freshly constructed machine. -/
theorem claim6_witness :
    exitState fresh [] = (fresh, Except.error (Val.err "No previous state to transition to")) :=
  claim6_exit_empty_history_throws fresh [] rfl

/-- Claim C10: raiseEvent called while the current state name has no
registered definition rejects with the thrown TypeError of the unguarded
current-state handler lookup instead of resolving with undefined (the
beforeAll and afterAll lookups are guarded in the code, the current-state
lookup is not). -/
theorem claim10_raise_event_undefined_state (m : Machine) (eventName : String)
    (args : List Val) (h : getState m m.currentStateName = none) :
    raiseEvent m eventName args = Except.error typeErrorUndefinedLookup := by
  unfold raiseEvent
  rw [h]

/-- Witness for claim C10: a machine whose beforeAll pseudo-state carries a
handler for the raised event still rejects, because the current state name
(the empty string) has no definition. -/
theorem claim10_witness :
    raiseEvent beforeAllOnlyM "x" [] = Except.error typeErrorUndefinedLookup :=
  claim10_raise_event_undefined_state beforeAllOnlyM "x" [] rfl

/-- Claim C8 counterexample: on a fresh machine the sequence of defineState
calls with names (empty string, b) ends with initialStateName b, not with the
first call name: the falsy test in defineState skips an empty first name, so
the first call name does not become the initial state name. -/
theorem claim8_counterexample :
    (foldDefine fresh [("", emptyDef), ("b", emptyDef)]).initialStateName ≠
      specFirstCallName [("", emptyDef), ("b", emptyDef)] := by
  decide

/-- An enterState call made with an empty queue drains exactly the one
request it enqueued and resolves with the drain result undefined. -/
theorem enterState_eq (m : Machine) (t : String) (rest : List Val)
    (h : m.transitionQueue = []) :
    enterState m t rest =
      ({ (runRequest { m with transitionQueue := [], transitioning := true }
          ⟨t, Direction.forward, rest⟩).1 with transitioning := false }, Val.undef) := by
  unfold enterState processTransition
  simp only [h, List.nil_append]
  rfl

/-- An exitState call made with an empty queue and a non-empty history pops
the last entry, drains exactly the one backward request it enqueued toward
that entry name with the override arguments when supplied and the stored ones
otherwise, and resolves with the drain result undefined. -/
theorem exitState_eq (m : Machine) (rest : List Val) (e : HistEntry)
    (h₁ : m.previousStates.getLast? = some e) (h₂ : m.transitionQueue = []) :
    exitState m rest =
      ({ (runRequest
            { m with previousStates := m.previousStates.dropLast,
                     transitionQueue := [], transitioning := true }
            ⟨e.name, Direction.backward, if rest.length = 0 then e.args else rest⟩).1
          with transitioning := false }, Except.ok Val.undef) := by
  unfold exitState
  rw [h₁]
  unfold processTransition
  simp only [h₂, List.nil_append]
  rfl

/-- A queued closure whose guard cancels the transition returns the guard
value and leaves the machine untouched. -/
theorem runRequest_guard_error (m : Machine) (req : RequestDescr) (g : List Val → Val)
    (hne : req.target ≠ m.currentStateName)
    (hg : lookupTransition m.transitions m.currentStateName req.target = some g)
    (herr : (g req.args).isError = true) :
    runRequest m req = (m, g req.args) := by
  unfold runRequest requestSeg1 requestSeg2
  simp only [if_neg hne, hg, if_pos herr]

/-- Claim C5: exitState with a non-empty history pops exactly the top entry
(the only further history change being the clearing the specification itself
prescribes when the entry names the initial state), runs one backward request
toward that entry name carrying the override arguments when the caller gave
any and the stored arguments otherwise, and whenever that request result is
not error-kind the current state name ends equal to the entry name. -/
theorem claim5_exit_pops_top (m : Machine) (rest : List Val) (e : HistEntry)
    (h₁ : m.previousStates.getLast? = some e) (h₂ : m.transitionQueue = []) :
    exitState m rest =
      ({ (runRequest
            { m with previousStates := m.previousStates.dropLast,
                     transitionQueue := [], transitioning := true }
            ⟨e.name, Direction.backward, if rest.length = 0 then e.args else rest⟩).1
          with transitioning := false }, Except.ok Val.undef) ∧
    ((exitState m rest).1.previousStates = m.previousStates.dropLast ∨
      ((exitState m rest).1.previousStates = [] ∧ e.name = m.initialStateName)) ∧
    ((runRequest
        { m with previousStates := m.previousStates.dropLast,
                 transitionQueue := [], transitioning := true }
        ⟨e.name, Direction.backward, if rest.length = 0 then e.args else rest⟩).2.isError
          = false →
      (exitState m rest).1.currentStateName = e.name) := by
  have heq := exitState_eq m rest e h₁ h₂
  refine ⟨heq, ?prev, ?cur⟩
  · rcases runRequest_backward_prev
      { m with previousStates := m.previousStates.dropLast,
               transitionQueue := [], transitioning := true }
      ⟨e.name, Direction.backward, if rest.length = 0 then e.args else rest⟩ rfl with
      hsame | ⟨hempty, hini⟩
    · left; rw [heq]; exact hsame
    · right; rw [heq]; exact ⟨hempty, hini⟩
  · intro hok
    rw [heq]
    exact runRequest_ok_current _ _ hok

/-- Witness for claim C5 on the machine that entered b from initial a. -/
theorem claim5_witness :
    (exitState oneBackM []).2 = Except.ok Val.undef ∧
    (exitState oneBackM []).1.currentStateName = "a" ∧
    (exitState oneBackM []).1.previousStates = [] := by
  have h := claim5_exit_pops_top oneBackM [] ⟨"a", []⟩ rfl rfl
  refine ⟨?res, ?cur, ?prev⟩
  · rw [h.1]
  · exact h.2.2 rfl
  · rcases h.2.1 with hs | ⟨he, _⟩
    · exact hs
    · exact he

/-- Claim C3 counterexample: in the scenario machine that moved a to b with a
cancelling guard registered on the backward pair (b, a), an exitState call
whose guard resolves to an error-kind value leaves the current state name
unchanged but not the history stack: the popped entry is never restored. -/
theorem claim3_counterexample :
    (exitState exitDenyM []).1.previousStates ≠ exitDenyM.previousStates ∧
    (exitState exitDenyM []).1.currentStateName = exitDenyM.currentStateName := by
  refine ⟨?ne, rfl⟩
  decide

/-- Claim C3 amended: a guard resolving to an error-kind value leaves the
current state name unchanged in both directions and leaves the history stack
unchanged for forward transitions via enterState; for backward transitions
via exitState the history stack has lost exactly the popped top entry, which
is not restored. -/
theorem claim3_amended_guard_error (m : Machine) (target : String) (args : List Val)
    (g : List Val → Val) (e : HistEntry) :
    (m.transitionQueue = [] → target ≠ m.currentStateName →
      lookupTransition m.transitions m.currentStateName target = some g →
      (g args).isError = true →
      (enterState m target args).1.currentStateName = m.currentStateName ∧
      (enterState m target args).1.previousStates = m.previousStates) ∧
    (m.transitionQueue = [] → m.previousStates.getLast? = some e →
      e.name ≠ m.currentStateName →
      lookupTransition m.transitions m.currentStateName e.name = some g →
      (g (if args.length = 0 then e.args else args)).isError = true →
      (exitState m args).1.currentStateName = m.currentStateName ∧
      (exitState m args).1.previousStates = m.previousStates.dropLast) := by
  constructor
  · intro hq hne hg herr
    rw [enterState_eq m target args hq]
    rw [runRequest_guard_error _ _ g hne hg herr]
    exact ⟨rfl, rfl⟩
  · intro hq hlast hne hg herr
    rw [exitState_eq m args e hlast hq]
    rw [runRequest_guard_error _ _ g hne hg herr]
    exact ⟨rfl, rfl⟩

/-- Witness for the amended claim C3, forward direction, on the scenario
machine with a cancelling guard on (a, b). -/
theorem claim3_amended_witness :
    (enterState guardDenyM "b" []).1.currentStateName = "a" ∧
    (enterState guardDenyM "b" []).1.previousStates = [] := by
  have h := (claim3_amended_guard_error guardDenyM "b" [] denyGuard ⟨"x", []⟩).1 rfl
    (by decide) rfl rfl
  exact ⟨h.1.trans rfl, h.2.trans rfl⟩

/-- Claim C4: initialState rejects with the thrown failure when the name has
no registered definition; on a registered name it sets the initial and
current state names, empties the history, and resolves with the enter
callback result when the definition has one and with undefined otherwise;
the transition guard registry is never consulted on this path. -/
theorem claim4_initial_state (m : Machine) (name : String) (args : List Val) :
    (getState m name = none →
      initialState m name args =
        (m, Except.error (Val.err
          ("Cannot set initial state \"" ++ name ++ "\" because it does not exist!")))) ∧
    (∀ d, getState m name = some d →
      (initialState m name args).1.initialStateName = name ∧
      (initialState m name args).1.currentStateName = name ∧
      (initialState m name args).1.previousStates = [] ∧
      (initialState m name args).2 =
        Except.ok (match d.enter with | some f => f args | none => Val.undef)) ∧
    (∀ ts, initialState { m with transitions := ts } name args =
      ({ (initialState m name args).1 with transitions := ts },
        (initialState m name args).2)) := by
  refine ⟨?noneCase, ?someCase, ?guards⟩
  · intro h; unfold initialState; rw [h]
  · intro d h
    unfold initialState
    rw [h]
    cases he : d.enter <;> simp [he]
  · intro ts
    unfold initialState
    rw [getState_transitions]
    cases h : getState m name with
    | none => rfl
    | some d => cases he : d.enter <;> simp [he]

/-- Witness for claim C4 on the machine with states x and y. -/
theorem claim4_witness :
    getState twoStatesM "y" = some emptyDef ∧
    (initialState twoStatesM "y" []).1.initialStateName = "y" ∧
    (initialState twoStatesM "y" []).1.currentStateName = "y" ∧
    (initialState twoStatesM "y" []).1.previousStates = [] ∧
    (initialState twoStatesM "y" []).2 = Except.ok Val.undef := by
  have h := (claim4_initial_state twoStatesM "y" []).2.1 emptyDef rfl
  exact ⟨rfl, h.1, h.2.1, h.2.2.1, h.2.2.2⟩

/-- An enterState call whose final current state name equals its final
initial state name either moved nothing (history and current state exactly as
before) or ends with an empty history. -/
theorem enterState_q (m : Machine) (t : String) (rest : List Val)
    (h : (enterState m t rest).1.currentStateName =
      (enterState m t rest).1.initialStateName) :
    ((enterState m t rest).1.previousStates = m.previousStates ∧
      (enterState m t rest).1.currentStateName = m.currentStateName) ∨
    (enterState m t rest).1.previousStates = [] := by
  have heq : enterState m t rest =
      ((processTransitionGo
          { m with transitionQueue := m.transitionQueue ++ [⟨t, Direction.forward, rest⟩] }
          (m.transitionQueue ++ [⟨t, Direction.forward, rest⟩])).1,
        (processTransitionGo
          { m with transitionQueue := m.transitionQueue ++ [⟨t, Direction.forward, rest⟩] }
          (m.transitionQueue ++ [⟨t, Direction.forward, rest⟩])).2) := rfl
  rw [heq] at h ⊢
  exact processGo_q _ _ h

/-- An exitState call on a non-empty history whose final current state name
equals its final initial state name either moved nothing after the pop or
ends with an empty history. -/
theorem exitState_q (m : Machine) (rest : List Val) (e : HistEntry)
    (hl : m.previousStates.getLast? = some e)
    (h : (exitState m rest).1.currentStateName =
      (exitState m rest).1.initialStateName) :
    ((exitState m rest).1.previousStates = m.previousStates.dropLast ∧
      (exitState m rest).1.currentStateName = m.currentStateName) ∨
    (exitState m rest).1.previousStates = [] := by
  have heq : exitState m rest =
      ((processTransitionGo
          { m with previousStates := m.previousStates.dropLast,
                   transitionQueue := m.transitionQueue ++
                     [⟨e.name, Direction.backward,
                       if rest.length = 0 then e.args else rest⟩] }
          (m.transitionQueue ++
            [⟨e.name, Direction.backward,
              if rest.length = 0 then e.args else rest⟩])).1,
        Except.ok
          (processTransitionGo
            { m with previousStates := m.previousStates.dropLast,
                     transitionQueue := m.transitionQueue ++
                       [⟨e.name, Direction.backward,
                         if rest.length = 0 then e.args else rest⟩] }
            (m.transitionQueue ++
              [⟨e.name, Direction.backward,
                if rest.length = 0 then e.args else rest⟩])).2) := by
    unfold exitState
    rw [hl]
    rfl
  rw [heq] at h ⊢
  exact processGo_q _ _ h

/-- Claim C7: whenever an operation changes the current state name to the
(final) initial state name — initialState, or the completion of a forward or
backward transition whose target is the initial state — the history stack
ends empty. -/
theorem claim7_entering_initial_clears (op : Op) (m : Machine)
    (h₁ : (applyOp op m).currentStateName ≠ m.currentStateName)
    (h₂ : (applyOp op m).currentStateName = (applyOp op m).initialStateName) :
    (applyOp op m).previousStates = [] := by
  cases op with
  | defineState n d => exact absurd (defineState_current m n d) h₁
  | defineTransition s t g =>
      refine absurd ?_ h₁
      show (defineTransition m s t g).1.currentStateName = m.currentStateName
      unfold defineTransition; split <;> rfl
  | initialState n args =>
      cases h : getState m n with
      | none =>
          refine absurd ?_ h₁
          show (initialState m n args).1.currentStateName = m.currentStateName
          unfold initialState; rw [h]
      | some d =>
          show (initialState m n args).1.previousStates = []
          unfold initialState; rw [h]
          cases he : d.enter <;> simp [he]
  | enterState n args =>
      rcases enterState_q m n args h₂ with ⟨_, hcur⟩ | hclear
      · exact absurd hcur h₁
      · exact hclear
  | exitState args =>
      cases hl : m.previousStates.getLast? with
      | none =>
          refine absurd ?_ h₁
          show (exitState m args).1.currentStateName = m.currentStateName
          unfold exitState; rw [hl]
      | some e =>
          rcases exitState_q m args e hl h₂ with ⟨_, hcur⟩ | hclear
          · exact absurd hcur h₁
          · exact hclear
  | raiseEvent n args => exact absurd rfl h₁
  | setData k v => exact absurd rfl h₁
  | debug b =>
      refine absurd ?_ h₁
      show (debugCall m b).currentStateName = m.currentStateName
      cases b <;> rfl

/-- Witness for claim C7: re-entering the initial state a from b empties the
history. -/
theorem claim7_witness :
    (applyOp (Op.enterState "a" []) oneBackM).previousStates = [] :=
  claim7_entering_initial_clears (Op.enterState "a" []) oneBackM (by decide) (by decide)

/-- Claim C8 amended: on a fresh machine the name of the first defineState
call with a non-empty name becomes initialStateName (an empty-string first
name leaves the designation open) and no later defineState call changes it;
once set, only a successful initialState call changes the designation. -/
theorem claim8_amended_initial_designation (calls : List (String × StateDef))
    (m : Machine) (op : Op) :
    (foldDefine fresh calls).initialStateName = firstNonEmptyName (calls.map Prod.fst) ∧
    (m.initialStateName ≠ "" → (applyOp op m).initialStateName ≠ m.initialStateName →
      ∃ n args, op = Op.initialState n args ∧ (∃ d, getState m n = some d) ∧
        (applyOp op m).initialStateName = n) := by
  constructor
  · have hf := foldDefine_initial calls fresh
    rw [if_pos (show fresh.initialStateName = "" from rfl)] at hf
    exact hf
  · intro hne hch
    cases op with
    | defineState n d =>
        have hd := defineState_initial m n d
        rw [if_neg hne] at hd
        exact absurd hd hch
    | defineTransition s t g =>
        refine absurd ?_ hch
        show (defineTransition m s t g).1.initialStateName = m.initialStateName
        unfold defineTransition; split <;> rfl
    | initialState n args =>
        cases h : getState m n with
        | none =>
            refine absurd ?_ hch
            show (initialState m n args).1.initialStateName = m.initialStateName
            unfold initialState; rw [h]
        | some d =>
            refine ⟨n, args, rfl, ⟨d, h⟩, ?_⟩
            show (initialState m n args).1.initialStateName = n
            unfold initialState; rw [h]
            cases he : d.enter <;> simp [he]
    | enterState n args =>
        exact absurd (processGo_initial _ _) hch
    | exitState args =>
        refine absurd ?_ hch
        cases hl : m.previousStates.getLast? with
        | none =>
            show (exitState m args).1.initialStateName = m.initialStateName
            unfold exitState; rw [hl]
        | some e =>
            show (exitState m args).1.initialStateName = m.initialStateName
            unfold exitState; rw [hl]
            exact processGo_initial _ _
    | raiseEvent n args => exact absurd rfl hch
    | setData k v => exact absurd rfl hch
    | debug b =>
        refine absurd ?_ hch
        show (debugCall m b).initialStateName = m.initialStateName
        cases b <;> rfl

/-- Witness for the amended claim C8: the empty-name first call is skipped
and b becomes initial; on the machine with initial x, the successful
initialState call toward y is the operation that changes the designation. -/
theorem claim8_witness :
    (foldDefine fresh [("", emptyDef), ("b", emptyDef)]).initialStateName = "b" ∧
    (∃ n args, Op.initialState "y" ([] : List Val) = Op.initialState n args ∧
      (∃ d, getState twoStatesM n = some d) ∧
      (applyOp (Op.initialState "y" []) twoStatesM).initialStateName = n) := by
  have h := claim8_amended_initial_designation [("", emptyDef), ("b", emptyDef)]
    twoStatesM (Op.initialState "y" [])
  exact ⟨h.1.trans rfl, h.2 (by decide) (by decide)⟩

/-- Claim C9: when a forward transition passes its guard (or has none) and
the exit callback of the current state succeeds (or is absent) but the enter
callback of the target resolves with an error-kind value, nothing is rolled
back: the current state name ends at the target, the pushed history entry
stays (except for the prescribed clearing when the target is the initial
state), and the error-kind value is just the request result. -/
theorem claim9_enter_error_no_rollback (m : Machine) (target : String) (args : List Val)
    (cur tgt : StateDef) (ef : List Val → Val)
    (hne : target ≠ m.currentStateName)
    (hguard : lookupTransition m.transitions m.currentStateName target = none ∨
      ∃ g, lookupTransition m.transitions m.currentStateName target = some g ∧
        (g args).isError = false)
    (hcur : getState m m.currentStateName = some cur)
    (htgt : getState m target = some tgt)
    (hexit : cur.exit = none ∨ ∃ f, cur.exit = some f ∧ (f args).isError = false)
    (henter : tgt.enter = some ef) (herr : (ef args).isError = true) :
    (runRequest m ⟨target, Direction.forward, args⟩).2 = ef args ∧
    (runRequest m ⟨target, Direction.forward, args⟩).1.currentStateName = target ∧
    (runRequest m ⟨target, Direction.forward, args⟩).1.previousStates =
      (if target = m.initialStateName then []
       else m.previousStates ++ [⟨m.currentStateName, args⟩]) := by
  have hts : runRequest m ⟨target, Direction.forward, args⟩ =
      transitionStates m target Direction.forward args := by
    unfold runRequest requestSeg1 requestSeg2
    rcases hguard with hnone | ⟨g, hg, hok⟩
    · simp only [if_neg hne, hnone]
    · simp only [if_neg hne, hg, hok]
      simp
  have hts2 : transitionStates m target Direction.forward args =
      goToNextState m target Direction.forward args tgt := by
    unfold transitionStates
    rw [hcur, htgt]
    rcases hexit with hnone | ⟨f, hf, hok⟩
    · simp only [hnone]
    · simp only [hf, hok]
      simp
  rw [hts, hts2]
  refine ⟨?res, goToNextState_current .., ?prev⟩
  · unfold goToNextState
    by_cases ht : target = m.initialStateName <;> simp [henter, ht]
  · rw [goToNextState_prev]

/-- Witness for claim C9 on the machine whose state b has an enter callback
resolving with an Error value. -/
theorem claim9_witness :
    (runRequest enterErrM ⟨"b", Direction.forward, []⟩).2 = Val.err "enter failed" ∧
    (runRequest enterErrM ⟨"b", Direction.forward, []⟩).1.currentStateName = "b" ∧
    (runRequest enterErrM ⟨"b", Direction.forward, []⟩).1.previousStates = [⟨"a", []⟩] := by
  have h := claim9_enter_error_no_rollback enterErrM "b" [] emptyDef failingEnterDef
    failingEnter (by decide) (Or.inl rfl) rfl rfl (Or.inl rfl) rfl rfl
  refine ⟨h.1, h.2.1, h.2.2.trans ?eval⟩
  decide

end FSM
